import Mathlib

/-!
A verification development for the Anal-Reporting analytics middleware
(`src/index.js`).  The JavaScript source is shallowly embedded: pure
functions become Lean functions, the queue/flusher state becomes an explicit
state type with a step relation, machine integers are `Nat`/`Int` with
explicit `% 2^32` where overflow matters, and timestamps are modelled as
integer milliseconds.
-/

namespace AnalReporting

open List

/-! ## String helpers

`joinSep` is JavaScript's `Array.prototype.join(sep)` on a list of strings;
`jsOr` is the JavaScript `x || d` defaulting idiom applied to an optional
string (both `undefined` and the empty string are falsy). -/

def joinSep (sep : String) : List String → String
  | [] => ""
  | [x] => x
  | x :: xs => x ++ sep ++ joinSep sep xs

def jsOr (o : Option String) (d : String) : String :=
  match o with
  | none => d
  | some s => if s = "" then d else s

/-! ## SHA-256

The `hash` anonymization policy calls Node's
`crypto.createHash("sha256").update(hashSalt + ip).digest("hex")`.  That
library routine is embedded here concretely as FIPS 180-4 SHA-256 over the
UTF-8 bytes of the input, producing the 64 lowercase hex characters of the
digest.  All 32-bit arithmetic is `Nat` arithmetic reduced `% 4294967296`
(2^32). -/

def w32mod : Nat := 4294967296

def rotr32 (n x : Nat) : Nat :=
  ((x >>> n) ||| ((x <<< (32 - n)) % w32mod)) % w32mod

def shaCh (x y z : Nat) : Nat := (x &&& y) ^^^ ((x ^^^ 4294967295) &&& z)

def shaMaj (x y z : Nat) : Nat := (x &&& y) ^^^ (x &&& z) ^^^ (y &&& z)

def bsig0 (x : Nat) : Nat := rotr32 2 x ^^^ rotr32 13 x ^^^ rotr32 22 x

def bsig1 (x : Nat) : Nat := rotr32 6 x ^^^ rotr32 11 x ^^^ rotr32 25 x

def ssig0 (x : Nat) : Nat := rotr32 7 x ^^^ rotr32 18 x ^^^ (x >>> 3)

def ssig1 (x : Nat) : Nat := rotr32 17 x ^^^ rotr32 19 x ^^^ (x >>> 10)

/-- The 64 SHA-256 round constants of FIPS 180-4 (decimal). -/
def sha256K : List Nat :=
  [1116352408, 1899447441, 3049323471, 3921009573,
   961987163, 1508970993, 2453635748, 2870763221,
   3624381080, 310598401, 607225278, 1426881987,
   1925078388, 2162078206, 2614888103, 3248222580,
   3835390401, 4022224774, 264347078, 604807628,
   770255983, 1249150122, 1555081692, 1996064986,
   2554220882, 2821834349, 2952996808, 3210313671,
   3336571891, 3584528711, 113926993, 338241895,
   666307205, 773529912, 1294757372, 1396182291,
   1695183700, 1986661051, 2177026350, 2456956037,
   2730485921, 2820302411, 3259730800, 3345764771,
   3516065817, 3600352804, 4094571909, 275423344,
   430227734, 506948616, 659060556, 883997877,
   958139571, 1322822218, 1537002063, 1747873779,
   1955562222, 2024104815, 2227730452, 2361852424,
   2428436474, 2756734187, 3204031479, 3329325298]

structure Sha256State where
  a : Nat
  b : Nat
  c : Nat
  d : Nat
  e : Nat
  f : Nat
  g : Nat
  h : Nat

/-- The eight SHA-256 initial hash words of FIPS 180-4 (decimal). -/
def sha256Init : Sha256State :=
  ⟨1779033703, 3144134277, 1013904242, 2773480762,
   1359893119, 2600822924, 528734635, 1541459225⟩

/-- UTF-8 encoding of one Unicode code point. -/
def utf8Bytes (c : Nat) : List Nat :=
  if c < 128 then [c]
  else if c < 2048 then [192 + c / 64, 128 + c % 64]
  else if c < 65536 then [224 + c / 4096, 128 + c / 64 % 64, 128 + c % 64]
  else [240 + c / 262144, 128 + c / 4096 % 64, 128 + c / 64 % 64, 128 + c % 64]

def strBytes (s : String) : List Nat :=
  (s.data.map (fun ch => utf8Bytes ch.toNat)).flatten

/-- Append the 0x80 marker, the zero padding and the 8-byte big-endian bit
length, so the padded message length is a multiple of 64 bytes. -/
def sha256Pad (msg : List Nat) : List Nat :=
  let len := msg.length
  let zeros := (64 - ((len + 9) % 64)) % 64
  msg ++ [128] ++ List.replicate zeros 0 ++
    (List.range 8).map (fun i => 8 * len / 2 ^ (8 * (7 - i)) % 256)

def bytesToWord (bs : List Nat) (j : Nat) : Nat :=
  bs.getD (4 * j) 0 * 16777216 + bs.getD (4 * j + 1) 0 * 65536 +
    bs.getD (4 * j + 2) 0 * 256 + bs.getD (4 * j + 3) 0

/-- Extend the 16 words of a chunk to the 64-word message schedule. -/
def sha256Schedule (chunk : List Nat) : List Nat :=
  (List.range 48).foldl
    (fun w _ =>
      let n := w.length
      w ++ [(ssig1 (w.getD (n - 2) 0) + w.getD (n - 7) 0 +
             ssig0 (w.getD (n - 15) 0) + w.getD (n - 16) 0) % w32mod])
    ((List.range 16).map (bytesToWord chunk))

def sha256Round (wsched : List Nat) (st : Sha256State) (t : Nat) : Sha256State :=
  let t1 := (st.h + bsig1 st.e + shaCh st.e st.f st.g +
             sha256K.getD t 0 + wsched.getD t 0) % w32mod
  let t2 := (bsig0 st.a + shaMaj st.a st.b st.c) % w32mod
  ⟨(t1 + t2) % w32mod, st.a, st.b, st.c, (st.d + t1) % w32mod, st.e, st.f, st.g⟩

def sha256Compress (st : Sha256State) (chunk : List Nat) : Sha256State :=
  let r := (List.range 64).foldl (sha256Round (sha256Schedule chunk)) st
  ⟨(st.a + r.a) % w32mod, (st.b + r.b) % w32mod, (st.c + r.c) % w32mod,
   (st.d + r.d) % w32mod, (st.e + r.e) % w32mod, (st.f + r.f) % w32mod,
   (st.g + r.g) % w32mod, (st.h + r.h) % w32mod⟩

def sha256Digest (msg : List Nat) : Sha256State :=
  let p := sha256Pad msg
  (List.range (p.length / 64)).foldl
    (fun st i => sha256Compress st ((p.drop (64 * i)).take 64)) sha256Init

def hexDigitChar (n : Nat) : Char :=
  ("0123456789abcdef".toList).getD n '0'

def hexWordChars (x : Nat) : List Char :=
  (List.range 8).map (fun i => hexDigitChar (x / 16 ^ (7 - i) % 16))

/-- The 64 hex characters of `digest("hex")` for SHA-256 of a string. -/
def sha256HexChars (s : String) : List Char :=
  (([(sha256Digest (strBytes s)).a, (sha256Digest (strBytes s)).b,
     (sha256Digest (strBytes s)).c, (sha256Digest (strBytes s)).d,
     (sha256Digest (strBytes s)).e, (sha256Digest (strBytes s)).f,
     (sha256Digest (strBytes s)).g, (sha256Digest (strBytes s)).h]).map
    hexWordChars).flatten

/-! ## Anonymizer

`makeAnonymizer` (src/index.js lines 28-50).  JavaScript's falsy test on the
ip string is the empty-string test; `digest("hex").slice(0, 16)` is the
16-character truncation of the hex digest. -/

def makeAnonymizer (mode : String) (hashSalt : String) (ip : String) :
    Option String :=
  if mode = "none" then
    if ip = "" then none else some ip
  else if mode = "hash" then
    if ip = "" then none
    else some (String.mk ((sha256HexChars (hashSalt ++ ip)).take 16))
  else
    -- default: 'cidr'
    if ip = "" then none
    else if ip.contains ':' then
      some (joinSep ":" ((ip.splitOn ":").take 3) ++ "::") -- IPv6 /48
    else if (ip.splitOn ".").length ≠ 4 then some ip
    else some (joinSep "." ((ip.splitOn ".").set 3 "0")) -- IPv4 /24

/-! ## Event records and the capture handler

One captured request observation (src/index.js lines 144-160, matching the
column set of `tableSql`).  `occurred_at` is modelled as integer epoch
milliseconds, `meta` as an opaque serialized payload. -/

structure Event where
  event_type : String
  occurred_at : Int
  user_id : Option String
  route : Option String
  method : String
  status : Int
  latency_ms : Int
  ip_cidr : Option String
  ip_full : Option String
  user_agent : Option String
  meta : Option String
deriving DecidableEq

/-- The request-derived inputs of the capture handler other than the client
IP: the values of `getUserId(req)`, `normalizeRoute(req)`, `req.method`,
`res.statusCode`, the measured latency, the user-agent header and the meta
payload. -/
structure ReqInfo where
  userId : Option String
  route : Option String
  method : String
  status : Int
  latencyMs : Int
  userAgent : Option String
  meta : Option String
deriving DecidableEq

/-- The record pushed by the capture handler (src/index.js lines 144-160).
`mode` is the defaulted anonymization policy `opts.anonymizeIp || "cidr"`;
the source's `opts.anonymizeIp === "none"` test on the raw option value
agrees with `mode = "none"` on the defaulted one, since defaulting rewrites
only falsy values (never `"none"`) to `"cidr"`. -/
def captureEvent (mode hashSalt : String) (ip : String) (r : ReqInfo)
    (occurredAt : Int) : Event :=
  { event_type := "request"
    occurred_at := occurredAt
    user_id := r.userId
    route := r.route
    method := r.method
    status := r.status
    latency_ms := r.latencyMs
    ip_cidr := makeAnonymizer mode hashSalt ip
    ip_full := if mode = "none" then (if ip = "" then none else some ip) else none
    user_agent := r.userAgent
    meta := r.meta }

/-- The spec's record invariant: exactly one of the anonymized-IP field
populated, the full-IP field populated, or both null. -/
def ipExclusive (e : Event) : Prop :=
  (e.ip_cidr ≠ none ∧ e.ip_full = none) ∨
  (e.ip_full ≠ none ∧ e.ip_cidr = none) ∨
  (e.ip_cidr = none ∧ e.ip_full = none)

instance (e : Event) : Decidable (ipExclusive e) := by
  unfold ipExclusive; infer_instance

/-! ## The batch insert

`drain` builds one parameterized INSERT from the spliced items
(src/index.js lines 94-119): one 11-placeholder tuple per record, the
placeholder counter `i` running on across rows, and one flat parameter list
with the 11 column values of each record in order. -/

inductive SqlValue
  | s (v : String)
  | n (v : Int)
  | null
deriving DecidableEq

def optParam (o : Option String) : SqlValue :=
  match o with
  | none => SqlValue.null
  | some v => SqlValue.s v

/-- The 11 parameters pushed for one record, in the source's order
(`e.meta || null` maps an absent meta to the SQL null). -/
def rowParams (e : Event) : List SqlValue :=
  [SqlValue.s e.event_type, SqlValue.n e.occurred_at, optParam e.user_id,
   optParam e.route, SqlValue.s e.method, SqlValue.n e.status,
   SqlValue.n e.latency_ms, optParam e.ip_cidr, optParam e.ip_full,
   optParam e.user_agent, optParam e.meta]

/-- One SQL INSERT statement: its target table, column list, the placeholder
numbers of each row tuple, and the flat bind-parameter list. -/
structure Insert where
  table : String
  columns : List String
  tuples : List (List Nat)
  params : List SqlValue
deriving DecidableEq

def insertColumns : List String :=
  ["event_type", "occurred_at", "user_id", "route", "method", "status",
   "latency_ms", "ip_cidr", "ip_full", "user_agent", "meta"]

/-- The single multi-row insert `drain` executes for a batch: row `j` uses
placeholders `11*j+1 .. 11*j+11` (the running counter `i`), and the
parameter list is the concatenation of each row's 11 values. -/
def buildInsert (table : String) (items : List Event) : Insert :=
  { table := table
    columns := insertColumns
    tuples := (List.range items.length).map
      (fun j => (List.range 11).map (fun k => 11 * j + k + 1))
    params := (items.map rowParams).flatten }

/-! ## The queue and flusher state machine

State of `enableAnalytics`'s closure (src/index.js lines 86-128, 301-305):
the in-memory `queue` (each pending record tagged with the sequence number
of its push, so batches can be compared), the `draining` flag, the batch an
in-progress flush has removed (`inflight`, between the splice and the
completion of `pool.query`), every batch any flush has removed (`flushed`),
the batches the store accepted (`store`), the logged error lines, whether
the interval timer is installed and whether the pool is open.  `drain` is
async: everything up to the `await pool.query` happens atomically
(`applyDrainInvoke`), and the completion of the awaited insert — fulfilled
or rejected — is a separate atomic step (`applyDrainEndOk` /
`applyDrainEndFail`, the latter being the `catch`/`finally` path). -/

structure SysState where
  queue : List (Nat × Event)
  nextId : Nat
  draining : Bool
  inflight : Option (List (Nat × Event))
  flushed : List (List (Nat × Event))
  store : List (List (Nat × Event))
  errors : List String
  timerActive : Bool
  poolOpen : Bool
deriving DecidableEq

def initState : SysState :=
  { queue := [], nextId := 0, draining := false, inflight := none,
    flushed := [], store := [], errors := [], timerActive := true,
    poolOpen := true }

/-- `queue.push(record)` in the finish listener (line 144): a synchronous
append, tagged with a fresh sequence number. -/
def applyPush (e : Event) (s : SysState) : SysState :=
  { s with queue := s.queue ++ [(s.nextId, e)], nextId := s.nextId + 1 }

/-- Calling `drain()` (lines 89-93): if a flush is in progress or the queue
is empty the call returns at once with no effect; otherwise it sets the
flag and splices the first `bs` records out of the queue as the new
in-flight batch. -/
def applyDrainInvoke (bs : Nat) (s : SysState) : SysState :=
  if s.draining || s.queue.isEmpty then s
  else
    { s with draining := true
             inflight := some (s.queue.take bs)
             queue := s.queue.drop bs
             flushed := s.flushed ++ [s.queue.take bs] }

/-- The awaited `pool.query(sql, params)` fulfils (line 120): the batch is
accepted by the store and the `finally` clause clears the flag. -/
def applyDrainEndOk (s : SysState) : SysState :=
  match s.inflight with
  | some b => { s with store := s.store ++ [b], inflight := none, draining := false }
  | none => s

/-- The awaited insert rejects (lines 121-126): the failure is logged, the
removed batch is dropped, and the `finally` clause clears the flag. -/
def applyDrainEndFail (msg : String) (s : SysState) : SysState :=
  match s.inflight with
  | some _ =>
    { s with errors := s.errors ++ ["[analytics] batch insert failed: " ++ msg],
             inflight := none, draining := false }
  | none => s

/-- The returned `stop` (lines 301-305): it awaits `pool.end()` and nothing
else — in particular the interval handle is never cleared. -/
def applyStop (s : SysState) : SysState :=
  { s with poolOpen := false }

/-- One atomic transition of the pipeline.  Timer ticks (line 128) and the
size-threshold trigger (line 162) both just call `drain`; a successful
insert needs the pool to still be open, while the store may reject an
insert at any time (connection loss, constraint violation, closed pool). -/
inductive Step (bs : Nat) : SysState → SysState → Prop
  | push (e : Event) (s : SysState) : Step bs s (applyPush e s)
  | timerTick (s : SysState) (h : s.timerActive = true) :
      Step bs s (applyDrainInvoke bs s)
  | threshold (s : SysState) (h : bs ≤ s.queue.length) :
      Step bs s (applyDrainInvoke bs s)
  | drainOk (s : SysState) (h : s.draining = true) (hp : s.poolOpen = true) :
      Step bs s (applyDrainEndOk s)
  | drainFail (msg : String) (s : SysState) (h : s.draining = true) :
      Step bs s (applyDrainEndFail msg s)
  | stop (s : SysState) : Step bs s (applyStop s)

/-- Zero or more steps. -/
inductive ReachFrom (bs : Nat) : SysState → SysState → Prop
  | refl (s : SysState) : ReachFrom bs s s
  | tail {s t u : SysState} : ReachFrom bs s t → Step bs t u → ReachFrom bs s u

def Reachable (bs : Nat) (s : SysState) : Prop :=
  ReachFrom bs initState s

/-! ### Invariants of the pipeline -/

def batchIds (b : List (Nat × Event)) : List Nat := b.map Prod.fst

/-- Every sequence number alive in the system: those still queued followed
by those any flush has removed. -/
def allIds (s : SysState) : List Nat :=
  batchIds s.queue ++ (s.flushed.map batchIds).flatten

/-- The inductive invariant: sequence numbers are globally distinct and
below the next fresh one, the `draining` flag tracks exactly whether a
batch is in flight, and the in-flight batch is one of the removed ones. -/
def Inv (s : SysState) : Prop :=
  (allIds s).Nodup ∧
  (∀ i ∈ allIds s, i < s.nextId) ∧
  s.draining = s.inflight.isSome ∧
  (∀ b, s.inflight = some b → b ∈ s.flushed)

theorem inv_init : Inv initState := by
  refine ⟨?_, ?_, ?_, ?_⟩ <;> simp [initState, allIds, batchIds]

theorem allIds_push (e : Event) (s : SysState) :
    allIds (applyPush e s) = (batchIds s.queue ++ [s.nextId]) ++
      (s.flushed.map batchIds).flatten := by
  simp [allIds, applyPush, batchIds]

theorem inv_push (e : Event) (s : SysState) (h : Inv s) : Inv (applyPush e s) := by
  obtain ⟨hnd, hlt, hdr, hin⟩ := h
  have hperm : allIds (applyPush e s) ~ s.nextId :: allIds s := by
    rw [allIds_push, List.append_assoc, List.singleton_append, allIds]
    exact List.perm_middle
  refine ⟨?_, ?_, ?_, ?_⟩
  · refine hperm.nodup_iff.mpr (List.nodup_cons.mpr ⟨?_, hnd⟩)
    intro hmem
    exact absurd (hlt _ hmem) (lt_irrefl _)
  · intro i hi
    have hm : i ∈ s.nextId :: allIds s := hperm.mem_iff.mp hi
    have hnx : (applyPush e s).nextId = s.nextId + 1 := rfl
    rcases List.mem_cons.mp hm with h1 | h1
    · omega
    · have := hlt _ h1; omega
  · simpa [applyPush] using hdr
  · intro b hb
    simp only [applyPush] at hb ⊢
    exact hin b hb

theorem perm_rot (A J T : List Nat) : A ++ (J ++ T) ~ T ++ (A ++ J) := by
  calc A ++ (J ++ T) ~ (J ++ T) ++ A := List.perm_append_comm
    _ = J ++ (T ++ A) := List.append_assoc J T A
    _ ~ (T ++ A) ++ J := List.perm_append_comm
    _ = T ++ (A ++ J) := List.append_assoc T A J

theorem inv_drainStart (bs : Nat) (s : SysState) (h : Inv s) :
    Inv { s with draining := true
                 inflight := some (s.queue.take bs)
                 queue := s.queue.drop bs
                 flushed := s.flushed ++ [s.queue.take bs] } := by
  obtain ⟨hnd, hlt, _, _⟩ := h
  have e1 : allIds { s with draining := true
                            inflight := some (s.queue.take bs)
                            queue := s.queue.drop bs
                            flushed := s.flushed ++ [s.queue.take bs] } =
      batchIds (s.queue.drop bs) ++
        ((s.flushed.map batchIds).flatten ++ batchIds (s.queue.take bs)) := by
    simp [allIds, List.flatten_append]
  have e2 : allIds s = batchIds (s.queue.take bs) ++
      (batchIds (s.queue.drop bs) ++ (s.flushed.map batchIds).flatten) := by
    have hsplit : batchIds s.queue =
        batchIds (s.queue.take bs) ++ batchIds (s.queue.drop bs) := by
      rw [batchIds, batchIds, batchIds, ← List.map_append, List.take_append_drop]
    rw [allIds, hsplit, List.append_assoc]
  have hperm : allIds { s with draining := true
                               inflight := some (s.queue.take bs)
                               queue := s.queue.drop bs
                               flushed := s.flushed ++ [s.queue.take bs] } ~
      allIds s := by
    rw [e1, e2]; exact perm_rot _ _ _
  refine ⟨hperm.nodup_iff.mpr hnd, ?_, ?_, ?_⟩
  · intro i hi
    exact hlt _ (hperm.mem_iff.mp hi)
  · simp
  · intro b hb
    simp only [Option.some.injEq] at hb
    simp [← hb]

theorem inv_drainInvoke (bs : Nat) (s : SysState) (h : Inv s) :
    Inv (applyDrainInvoke bs s) := by
  unfold applyDrainInvoke
  by_cases hg : (s.draining || s.queue.isEmpty) = true
  · rw [if_pos hg]; exact h
  · rw [if_neg hg]; exact inv_drainStart bs s h

theorem inv_drainEndOk (s : SysState) (h : Inv s) : Inv (applyDrainEndOk s) := by
  obtain ⟨hnd, hlt, hdr, hin⟩ := h
  unfold applyDrainEndOk
  cases hb : s.inflight with
  | none => exact ⟨hnd, hlt, hdr, hin⟩
  | some b =>
    refine ⟨?_, ?_, ?_, ?_⟩
    · simpa [allIds, batchIds] using hnd
    · intro i hi
      exact hlt i (by simpa [allIds, batchIds] using hi)
    · simp
    · intro c hc
      simp at hc

theorem inv_drainEndFail (msg : String) (s : SysState) (h : Inv s) :
    Inv (applyDrainEndFail msg s) := by
  obtain ⟨hnd, hlt, hdr, hin⟩ := h
  unfold applyDrainEndFail
  cases hb : s.inflight with
  | none => exact ⟨hnd, hlt, hdr, hin⟩
  | some b =>
    refine ⟨?_, ?_, ?_, ?_⟩
    · simpa [allIds, batchIds] using hnd
    · intro i hi
      exact hlt i (by simpa [allIds, batchIds] using hi)
    · simp
    · intro c hc
      simp at hc

theorem inv_stop (s : SysState) (h : Inv s) : Inv (applyStop s) := by
  obtain ⟨hnd, hlt, hdr, hin⟩ := h
  exact ⟨hnd, hlt, hdr, hin⟩

theorem inv_step {bs : Nat} {s s' : SysState} (st : Step bs s s') (h : Inv s) :
    Inv s' := by
  cases st with
  | push e s => exact inv_push e s h
  | timerTick s _ => exact inv_drainInvoke bs s h
  | threshold s _ => exact inv_drainInvoke bs s h
  | drainOk s _ _ => exact inv_drainEndOk s h
  | drainFail msg s _ => exact inv_drainEndFail msg s h
  | stop s => exact inv_stop s h

theorem inv_reachFrom {bs : Nat} {s t : SysState} (h : ReachFrom bs s t)
    (hs : Inv s) : Inv t := by
  induction h with
  | refl => exact hs
  | tail _ st ih => exact inv_step st ih

theorem inv_reachable {bs : Nat} {s : SysState} (h : Reachable bs s) : Inv s :=
  inv_reachFrom h inv_init

/-! ## The aggregation query layer

The read endpoints issue fixed SQL against the event table.  The traffic
handler (src/index.js lines 226-241) is modelled by the store request it
sends; the top-routes statement (lines 243-255) is modelled by its
relational semantics over a list of persisted rows. -/

structure StoreQuery where
  text : String
  params : List String
deriving DecidableEq

def trafficSqlText (table : String) : String :=
  "SELECT date_trunc($1, occurred_at) AS t, COUNT(*)::int AS c FROM " ++
    table ++ " WHERE occurred_at > now() - ($2)::interval GROUP BY 1 ORDER BY 1"

/-- The `/api/traffic` handler: defaulting of the two query-string values
and the parameterized query it sends — there is no other branch before
`pool.query`. -/
def trafficQuery (table : String) (qwindow qbucket : Option String) : StoreQuery :=
  { text := trafficSqlText table
    params := [jsOr qbucket "hour", jsOr qwindow "24 hours"] }

def dayMs : Int := 86400000

/-- The rows the `/api/top-routes` statement's WHERE clause keeps: trailing
24 hours and a non-null route. -/
def recentRouted (now : Int) (rows : List Event) : List Event :=
  rows.filter (fun e => decide (now - dayMs < e.occurred_at) && e.route.isSome)

/-- The distinct grouping keys of GROUP BY route over those rows. -/
def routeKeys (now : Int) (rows : List Event) : List String :=
  ((recentRouted now rows).filterMap (fun e => e.route)).dedup

/-- COUNT(*) of one route's group. -/
def routeCount (now : Int) (rows : List Event) (r : String) : Nat :=
  ((recentRouted now rows).filter (fun e => decide (e.route = some r))).length

/-- Relational semantics of the `/api/top-routes` statement: rows of the
trailing 24 hours with a non-null route, grouped by route with their
counts, ordered by descending count, capped at 50 rows (LIMIT 50). -/
def topRoutes (now : Int) (rows : List Event) : List (String × Nat) :=
  (((routeKeys now rows).map (fun r => (r, routeCount now rows r))).mergeSort
    (fun a b => decide (b.2 ≤ a.2))).take 50

/-! ## Startup

`enableAnalytics` (src/index.js lines 62-128): option defaulting happens
first, then the `databaseUrl` guard throws before the pool is constructed,
the middleware installed or the flush timer started; on the success path
all three come into being. -/

structure Opts where
  table : Option String
  batch : Option Int
  intervalMs : Option Int
  anonymizeIp : Option String
  hashSalt : Option String
  databaseUrl : Option String
deriving DecidableEq

/-- `Number(x || d)` for a numeric option: absent or zero (both falsy) fall
back to the default. -/
def jsOrNum (o : Option Int) (d : Int) : Int :=
  match o with
  | none => d
  | some n => if n = 0 then d else n

/-- What exists after a successful `enableAnalytics` call. -/
structure Started where
  table : String
  batchSize : Int
  intervalMs : Int
  mode : String
  poolConn : String
  middlewareInstalled : Bool
  timerStarted : Bool
  sys : SysState
deriving DecidableEq

def requiredMsg : String := "enableAnalytics: databaseUrl is required"

/-- The synchronous part of `enableAnalytics`: defaults, then the guard of
lines 75-77 (a JavaScript falsy test, so an absent or empty `databaseUrl`
throws), then pool, middleware and timer. -/
def enableAnalyticsInit (o : Opts) : Except String Started :=
  let table := jsOr o.table "web_analytics_events"
  let batchSize := jsOrNum o.batch 500
  let intervalMs := jsOrNum o.intervalMs 2000
  let mode := jsOr o.anonymizeIp "cidr"
  match o.databaseUrl with
  | none => Except.error requiredMsg
  | some url =>
    if url = "" then Except.error requiredMsg
    else
      Except.ok { table := table, batchSize := batchSize,
                  intervalMs := intervalMs, mode := mode, poolConn := url,
                  middlewareInstalled := true, timerStarted := true,
                  sys := initState }

/-! ## Helper lemmas -/

theorem hexWordChars_length (x : Nat) : (hexWordChars x).length = 8 := by
  simp [hexWordChars]

theorem sha256HexChars_length (s : String) : (sha256HexChars s).length = 64 := by
  simp [sha256HexChars, hexWordChars_length]

/-- Under every policy the anonymizer maps exactly the empty (falsy) input
to null. -/
theorem makeAnonymizer_eq_none_iff (mode hashSalt ip : String) :
    makeAnonymizer mode hashSalt ip = none ↔ ip = "" := by
  unfold makeAnonymizer
  by_cases h1 : mode = "none"
  · by_cases hip : ip = "" <;> simp [h1, hip]
  · by_cases h2 : mode = "hash"
    · by_cases hip : ip = "" <;> simp [h1, h2, hip]
    · by_cases hip : ip = ""
      · simp [h1, h2, hip]
      · simp only [h1, h2, hip, if_false, iff_false]
        split
        · simp
        · split <;> simp

/-- Sample request data used in the concrete instantiations below. -/
def sampleReq : ReqInfo :=
  { userId := none, route := some "/", method := "GET", status := 200,
    latencyMs := 5, userAgent := some "curl/8", meta := none }

/-- Two concrete captured records (as the cidr-policy capture handler would
build them for `203.0.113.7` / `203.0.113.8`), used to drive the machine at
concrete inputs. -/
def ev1 : Event :=
  { event_type := "request", occurred_at := 0, user_id := none,
    route := some "/", method := "GET", status := 200, latency_ms := 5,
    ip_cidr := some "203.0.113.0", ip_full := none,
    user_agent := some "curl/8", meta := none }

def ev2 : Event :=
  { event_type := "request", occurred_at := 1, user_id := none,
    route := some "/", method := "GET", status := 200, latency_ms := 7,
    ip_cidr := some "203.0.113.0", ip_full := none,
    user_agent := some "curl/8", meta := none }

/-! ## The claims -/

/-- C1, counterexample: under policy `none` the capture handler populates
BOTH IP fields — `ip_cidr` receives the unchanged full IP from the `none`
anonymizer (src/index.js line 29 with line 152) while `ip_full` receives it
from the line-153 conditional — so the exactly-one-of invariant fails and
the anonymized field is populated. -/
theorem none_policy_populates_both_cex :
    (captureEvent "none" "" "203.0.113.7" sampleReq 0).ip_cidr =
      some "203.0.113.7" ∧
    (captureEvent "none" "" "203.0.113.7" sampleReq 0).ip_full =
      some "203.0.113.7" ∧
    ¬ ipExclusive (captureEvent "none" "" "203.0.113.7" sampleReq 0) := by
  refine ⟨by decide, by decide, by decide⟩

/-- C1, amended: under every policy other than `none`, `ip_full` is null
and `ip_cidr` is populated exactly when the input IP is non-empty (so
exactly one of the two fields is populated, or both are null); under policy
`none` the two fields are equal — both carry the unchanged IP for a
non-empty input, both null for an empty one. -/
theorem capture_ip_fields (mode hashSalt ip : String) (r : ReqInfo) (t : Int) :
    if mode = "none" then
      (captureEvent mode hashSalt ip r t).ip_cidr =
        (captureEvent mode hashSalt ip r t).ip_full ∧
      (captureEvent mode hashSalt ip r t).ip_full =
        (if ip = "" then none else some ip)
    else
      (captureEvent mode hashSalt ip r t).ip_full = none ∧
      ((captureEvent mode hashSalt ip r t).ip_cidr = none ↔ ip = "") ∧
      ipExclusive (captureEvent mode hashSalt ip r t) := by
  by_cases hm : mode = "none"
  · subst hm
    simp only [if_pos rfl, captureEvent]
    constructor
    · simp [makeAnonymizer]
    · rfl
  · rw [if_neg hm]
    have hfull : (captureEvent mode hashSalt ip r t).ip_full = none := by
      simp [captureEvent, hm]
    have hcidr : (captureEvent mode hashSalt ip r t).ip_cidr = none ↔ ip = "" := by
      simp only [captureEvent]
      exact makeAnonymizer_eq_none_iff mode hashSalt ip
    refine ⟨hfull, hcidr, ?_⟩
    by_cases hnone : (captureEvent mode hashSalt ip r t).ip_cidr = none
    · exact Or.inr (Or.inr ⟨hnone, hfull⟩)
    · exact Or.inl ⟨hnone, hfull⟩

/-- C2, counterexample: with `window="1 hour"` and `bucket="invalid"` the
traffic handler passes the bucket value to the store verbatim as the first
bind parameter — it is neither rejected (there is no validation branch
before `pool.query`) nor normalized to the default. -/
theorem traffic_bucket_unchecked_cex :
    (trafficQuery "web_analytics_events" (some "1 hour")
        (some "invalid")).params = ["invalid", "1 hour"] ∧
    ("invalid" : String) ≠ "hour" := by
  refine ⟨by decide, by decide⟩

/-- C2, amended: the traffic handler performs no allowlist check on the
bucket granularity: any non-empty caller value (valid or not) is passed
through unchanged to the store as a bind parameter of the fixed
parameterized SQL text (so it is never interpolated into the statement
itself), and an absent or empty value falls back to the defaults
`hour` / `24 hours`. -/
theorem traffic_query_shape (table : String) (qwindow qbucket qw2 qb2 : Option String) :
    (trafficQuery table qwindow qbucket).params =
      [jsOr qbucket "hour", jsOr qwindow "24 hours"] ∧
    (trafficQuery table qwindow qbucket).text = (trafficQuery table qw2 qb2).text ∧
    (trafficQuery table none none).params = ["hour", "24 hours"] :=
  ⟨rfl, rfl, rfl⟩

/-- C7: the `cidr` policy maps the empty input to null, an input containing
a colon to its first three colon-separated groups with `::` appended, a
4-part dotted input to the same address with the last octet replaced by
`0`, and any other input to itself unchanged; the salt never affects it.
The embedding is a total function, so no input can make it throw. -/
theorem cidr_policy (salt salt2 ip : String) :
    makeAnonymizer "cidr" salt ip =
      (if ip = "" then none
       else if ip.contains ':' then
         some (joinSep ":" ((ip.splitOn ":").take 3) ++ "::")
       else
         match ip.splitOn "." with
         | [a, b, c, _] => some (a ++ "." ++ b ++ "." ++ c ++ ".0")
         | _ => some ip) ∧
    makeAnonymizer "cidr" salt ip = makeAnonymizer "cidr" salt2 ip := by
  have key : ∀ s : String, makeAnonymizer "cidr" s ip =
      (if ip = "" then none
       else if ip.contains ':' then
         some (joinSep ":" ((ip.splitOn ":").take 3) ++ "::")
       else
         match ip.splitOn "." with
         | [a, b, c, _] => some (a ++ "." ++ b ++ "." ++ c ++ ".0")
         | _ => some ip) := by
    intro s
    unfold makeAnonymizer
    rw [if_neg (by decide : ¬ ("cidr" : String) = "none"),
        if_neg (by decide : ¬ ("cidr" : String) = "hash")]
    by_cases hip : ip = ""
    · simp [hip]
    · by_cases hc : ip.contains ':'
      · simp [hip, hc]
      · have hdot : ("." : String) ++ "0" = ".0" := rfl
        rcases hsp : ip.splitOn "." with _ | ⟨a, _ | ⟨b, _ | ⟨c, _ | ⟨d, _ | rest⟩⟩⟩⟩ <;>
          simp [hip, hc, hsp, joinSep, String.append_assoc, hdot]
  exact ⟨key salt, (key salt).trans (key salt2).symm⟩

/-- C8: the `hash` policy output is exactly the 16-character truncation of
the hex SHA-256 digest of `salt ++ ip` (so it is a deterministic function
of that concatenation), its length is 16 for every non-empty input
regardless of the input's length, and the empty input yields null. -/
theorem hash_policy_digest (hashSalt ip : String) :
    makeAnonymizer "hash" hashSalt ip =
      (if ip = "" then none
       else some (String.mk ((sha256HexChars (hashSalt ++ ip)).take 16))) ∧
    (makeAnonymizer "hash" hashSalt ip).map String.length =
      (if ip = "" then none else some 16) := by
  have heq : makeAnonymizer "hash" hashSalt ip =
      (if ip = "" then none
       else some (String.mk ((sha256HexChars (hashSalt ++ ip)).take 16))) := rfl
  refine ⟨heq, ?_⟩
  rw [heq]
  by_cases hip : ip = ""
  · simp [hip]
  · rw [if_neg hip, if_neg hip]
    have hlen : (String.mk ((sha256HexChars (hashSalt ++ ip)).take 16)).length = 16 := by
      show ((sha256HexChars (hashSalt ++ ip)).take 16).length = 16
      rw [List.length_take, sha256HexChars_length]
      omega
    exact congrArg some hlen

/-- C10, counterexample: an options object that does carry a `databaseUrl`
property, with the empty string as its value, still makes `enableAnalytics`
throw — the guard is a JavaScript falsy test, not a presence test. -/
def emptyUrlOpts : Opts :=
  { table := none, batch := none, intervalMs := none, anonymizeIp := none,
    hashSalt := none, databaseUrl := some "" }

theorem empty_databaseUrl_throws_cex :
    emptyUrlOpts.databaseUrl.isSome = true ∧
    enableAnalyticsInit emptyUrlOpts = Except.error requiredMsg :=
  ⟨rfl, rfl⟩

/-- C10, amended: with an absent or empty-string (falsy) `databaseUrl` the
synchronous setup stops at the guard with the error
`enableAnalytics: databaseUrl is required`, yielding none of the pool, the
middleware or the flush timer; with a non-empty `databaseUrl` the guard
never throws and the setup reaches the started system (pool connected to
that url, middleware installed, timer running). -/
theorem databaseUrl_guard (o : Opts) :
    if jsOr o.databaseUrl "" = "" then
      enableAnalyticsInit o = Except.error requiredMsg
    else
      ∃ r : Started, enableAnalyticsInit o = Except.ok r ∧
        r.poolConn = jsOr o.databaseUrl "" ∧
        r.timerStarted = true ∧ r.middlewareInstalled = true ∧
        r.table = jsOr o.table "web_analytics_events" ∧
        r.sys = initState := by
  cases hdb : o.databaseUrl with
  | none => simp [jsOr, enableAnalyticsInit, hdb]
  | some u =>
    by_cases hu : u = ""
    · subst hu
      simp [jsOr, enableAnalyticsInit, hdb]
    · have hj : jsOr (some u) "" = u := by simp [jsOr, hu]
      rw [hj, if_neg hu]
      refine ⟨{ table := jsOr o.table "web_analytics_events",
                batchSize := jsOrNum o.batch 500,
                intervalMs := jsOrNum o.intervalMs 2000,
                mode := jsOr o.anonymizeIp "cidr", poolConn := u,
                middlewareInstalled := true, timerStarted := true,
                sys := initState }, ?_, rfl, rfl, rfl, rfl, rfl⟩
      simp [enableAnalyticsInit, hdb, hu]

/-- Each record contributes exactly its 11 column values to the flat
parameter list of the batch insert. -/
theorem params_length (items : List Event) :
    ((items.map rowParams).flatten).length = 11 * items.length := by
  induction items with
  | nil => rfl
  | cons e t ih =>
    simp only [List.map_cons, List.flatten_cons, List.length_append, ih,
      List.length_cons]
    have h11 : (rowParams e).length = 11 := rfl
    omega

/-! ## Frame lemmas for the flusher machine -/

theorem drainInvoke_frame (bs : Nat) (u : SysState) :
    (applyDrainInvoke bs u).poolOpen = u.poolOpen ∧
    (applyDrainInvoke bs u).store = u.store ∧
    (applyDrainInvoke bs u).nextId = u.nextId ∧
    (applyDrainInvoke bs u).timerActive = u.timerActive := by
  unfold applyDrainInvoke
  split <;> exact ⟨rfl, rfl, rfl, rfl⟩

theorem drainEndFail_frame (msg : String) (u : SysState) :
    (applyDrainEndFail msg u).poolOpen = u.poolOpen ∧
    (applyDrainEndFail msg u).store = u.store ∧
    (applyDrainEndFail msg u).queue = u.queue := by
  unfold applyDrainEndFail
  cases u.inflight <;> exact ⟨rfl, rfl, rfl⟩

theorem drainEndOk_frame (u : SysState) :
    (applyDrainEndOk u).poolOpen = u.poolOpen ∧
    (applyDrainEndOk u).queue = u.queue := by
  unfold applyDrainEndOk
  cases u.inflight <;> exact ⟨rfl, rfl⟩

/-- One step cannot reopen a closed pool, and with the pool closed it
cannot grow the store (a successful insert needs the open pool). -/
theorem step_pool_frozen {bs : Nat} {u v : SysState} (st : Step bs u v)
    (hp : u.poolOpen = false) : v.poolOpen = false ∧ v.store = u.store := by
  cases st with
  | push e => exact ⟨hp, rfl⟩
  | timerTick hti =>
    exact ⟨by rw [(drainInvoke_frame bs u).1]; exact hp,
           (drainInvoke_frame bs u).2.1⟩
  | threshold hth =>
    exact ⟨by rw [(drainInvoke_frame bs u).1]; exact hp,
           (drainInvoke_frame bs u).2.1⟩
  | drainOk h1 h2 => simp_all
  | drainFail msg hd =>
    exact ⟨by rw [(drainEndFail_frame msg u).1]; exact hp,
           (drainEndFail_frame msg u).2.1⟩
  | stop => exact ⟨rfl, rfl⟩

/-- Once the pool is closed, every later state still has it closed and the
store never grows. -/
theorem pool_closed_frozen {bs : Nat} {s t : SysState} (h : ReachFrom bs s t)
    (hp : s.poolOpen = false) : t.poolOpen = false ∧ t.store = s.store := by
  induction h with
  | refl => exact ⟨hp, rfl⟩
  | tail h' st ih =>
    obtain ⟨hpool, hstore⟩ := ih
    obtain ⟨hp2, hs2⟩ := step_pool_frozen st hpool
    exact ⟨hp2, hs2.trans hstore⟩

/-! ## The flusher claims -/

/-- C3, counterexample: a state reached by pushing one record and then
calling `stop`.  `stop` (src/index.js lines 301-305) only awaits
`pool.end()`; the interval handle of line 128 is never cleared, so the
timer is still armed and its next tick triggers a drain that starts a
flush, removing the queued record. -/
def stoppedState : SysState := applyStop (applyPush ev1 initState)

theorem stop_does_not_halt_timer_cex :
    Reachable 500 stoppedState ∧
    stoppedState.timerActive = true ∧
    Step 500 stoppedState (applyDrainInvoke 500 stoppedState) ∧
    (applyDrainInvoke 500 stoppedState).draining = true ∧
    (applyDrainInvoke 500 stoppedState).inflight = some [(0, ev1)] := by
  refine ⟨?_, rfl, Step.timerTick _ rfl, rfl, rfl⟩
  exact ReachFrom.tail
    (ReachFrom.tail (ReachFrom.refl _) (Step.push ev1 _)) (Step.stop _)

/-- C3, amended: `stop` closes the connection pool and changes nothing
else — the queue, the draining flag, the store and the still-armed timer
are untouched, and no final flush is performed; from any state reachable
after `stop` the pool stays closed and no batch is ever successfully
inserted again (timer ticks may still start drains, but their inserts can
only fail and be dropped). -/
theorem stop_behavior (bs : Nat) (s t : SysState)
    (h : ReachFrom bs (applyStop s) t) :
    (applyStop s).timerActive = s.timerActive ∧
    (applyStop s).queue = s.queue ∧
    (applyStop s).draining = s.draining ∧
    (applyStop s).store = s.store ∧
    (applyStop s).poolOpen = false ∧
    t.poolOpen = false ∧ t.store = s.store := by
  obtain ⟨hpool, hstore⟩ := pool_closed_frozen h rfl
  exact ⟨rfl, rfl, rfl, rfl, rfl, hpool, hstore⟩

theorem stop_behavior_witness :
    (applyStop initState).timerActive = initState.timerActive ∧
    (applyStop initState).queue = initState.queue ∧
    (applyStop initState).draining = initState.draining ∧
    (applyStop initState).store = initState.store ∧
    (applyStop initState).poolOpen = false ∧
    (applyStop initState).poolOpen = false ∧
    (applyStop initState).store = initState.store :=
  stop_behavior 500 initState (applyStop initState) (ReachFrom.refl _)

/-- C4: in every reachable state, a drain invocation (timer tick or size
threshold) arriving while a flush is in flight is dropped with no effect
at all; completion of the in-flight insert — fulfilled or rejected —
clears the flag, re-enabling the next trigger; and the batches removed by
distinct flushes never share a record (their sequence-number ranges are
pairwise disjoint). -/
theorem at_most_one_flush (bs : Nat) (s : SysState) (h : Reachable bs s) :
    (s.draining = true → applyDrainInvoke bs s = s) ∧
    (applyDrainEndOk s).draining = false ∧
    (∀ msg, (applyDrainEndFail msg s).draining = false) ∧
    List.Pairwise (fun b c => (batchIds b).Disjoint (batchIds c)) s.flushed := by
  obtain ⟨hnd, hlt, hdr, hin⟩ := inv_reachable h
  refine ⟨?_, ?_, ?_, ?_⟩
  · intro hd
    unfold applyDrainInvoke
    rw [if_pos (by rw [hd]; rfl)]
  · unfold applyDrainEndOk
    cases hb : s.inflight with
    | none => rw [hdr, hb]; rfl
    | some b => rfl
  · intro msg
    unfold applyDrainEndFail
    cases hb : s.inflight with
    | none => rw [hdr, hb]; rfl
    | some b => rfl
  · rw [allIds] at hnd
    have hj : ((s.flushed.map batchIds).flatten).Nodup := hnd.of_append_right
    have hp : List.Pairwise List.Disjoint (s.flushed.map batchIds) :=
      (List.nodup_flatten.mp hj).2
    exact List.pairwise_map.mp hp

def witState1 : SysState :=
  applyDrainInvoke 500 (applyPush ev2 (applyPush ev1 initState))

theorem at_most_one_flush_witness :
    (witState1.draining = true → applyDrainInvoke 500 witState1 = witState1) ∧
    (applyDrainEndOk witState1).draining = false ∧
    (∀ msg, (applyDrainEndFail msg witState1).draining = false) ∧
    List.Pairwise (fun b c => (batchIds b).Disjoint (batchIds c))
      witState1.flushed :=
  at_most_one_flush 500 witState1
    (ReachFrom.tail
      (ReachFrom.tail (ReachFrom.tail (ReachFrom.refl _) (Step.push ev1 _))
        (Step.push ev2 _))
      (Step.timerTick _ rfl))

/-- C5: when the awaited insert of an in-flight batch rejects, the queue is
untouched (the batch is not requeued), the store is untouched (nothing is
written anywhere), the failure is appended to the log, the flag clears and
nothing stays in flight; pushes keep appending afterwards, and in every
later reachable state any batch newly accepted by the store is disjoint
from the dropped one — it is never re-inserted.  The rejection is an
ordinary logged transition of the machine, mirroring the `catch` that
keeps the failure away from the host process. -/
theorem failed_flush_dropped (bs : Nat) (s : SysState)
    (b : List (Nat × Event)) (msg : String)
    (hr : Reachable bs s) (hb : s.inflight = some b) :
    (applyDrainEndFail msg s).queue = s.queue ∧
    (applyDrainEndFail msg s).store = s.store ∧
    (applyDrainEndFail msg s).errors =
      s.errors ++ ["[analytics] batch insert failed: " ++ msg] ∧
    (applyDrainEndFail msg s).draining = false ∧
    (applyDrainEndFail msg s).inflight = none ∧
    (∀ e, (applyPush e (applyDrainEndFail msg s)).queue =
      s.queue ++ [(s.nextId, e)]) ∧
    (∀ t, ReachFrom bs (applyDrainEndFail msg s) t →
      ∀ c ∈ t.store, c ∉ s.store → (batchIds c).Disjoint (batchIds b)) := by
  obtain ⟨hnd, hlt, hdr, hin⟩ := inv_reachable hr
  have hs' : applyDrainEndFail msg s =
      { s with errors := s.errors ++ ["[analytics] batch insert failed: " ++ msg],
               inflight := none, draining := false } := by
    unfold applyDrainEndFail; rw [hb]
  rw [allIds] at hnd
  have hdead0 : ∀ i ∈ batchIds b, i ∉ batchIds s.queue ∧ i < s.nextId := by
    intro i hi
    have hflat : i ∈ (s.flushed.map batchIds).flatten :=
      List.mem_flatten.mpr ⟨batchIds b, List.mem_map_of_mem _ (hin b hb), hi⟩
    have hall : i ∈ allIds s := by
      rw [allIds]; exact List.mem_append_right _ hflat
    exact ⟨fun hqi => (List.nodup_append.mp hnd).2.2 hqi hflat, hlt i hall⟩
  rw [hs']
  refine ⟨rfl, rfl, rfl, rfl, rfl, fun e => rfl, ?_⟩
  intro t ht
  have main :
      (∀ i ∈ batchIds b, i ∉ batchIds t.queue ∧
        (∀ c, t.inflight = some c → i ∉ batchIds c) ∧ i < t.nextId) ∧
      (∀ c ∈ t.store, c ∉ s.store → (batchIds c).Disjoint (batchIds b)) := by
    induction ht with
    | refl =>
      refine ⟨?_, ?_⟩
      · intro i hi
        obtain ⟨hq, hl⟩ := hdead0 i hi
        exact ⟨hq, fun c hc => Option.noConfusion hc, hl⟩
      · intro c hcs hcns
        exact absurd hcs hcns
    | @tail t1 t2 h' st ih =>
      obtain ⟨ihd, ihs⟩ := ih
      cases st with
      | push e =>
        refine ⟨?_, ihs⟩
        intro i hi
        obtain ⟨h1, h2, h3⟩ := ihd i hi
        refine ⟨?_, h2, by show i < t1.nextId + 1; omega⟩
        intro hmem
        have hm2 : i ∈ batchIds t1.queue ++ [t1.nextId] := by
          have : batchIds ((applyPush e t1).queue) =
              batchIds t1.queue ++ [t1.nextId] := by
            simp [applyPush, batchIds]
          rw [← this]; exact hmem
        rcases List.mem_append.mp hm2 with hm | hm
        · exact h1 hm
        · have : i = t1.nextId := by simpa using hm
          omega
      | timerTick hti =>
        by_cases hg : (t1.draining || t1.queue.isEmpty) = true
        · have heq : applyDrainInvoke bs t1 = t1 := by
            unfold applyDrainInvoke; rw [if_pos hg]
          rw [heq]; exact ⟨ihd, ihs⟩
        · have heq : applyDrainInvoke bs t1 =
              { t1 with draining := true,
                        inflight := some (t1.queue.take bs),
                        queue := t1.queue.drop bs,
                        flushed := t1.flushed ++ [t1.queue.take bs] } := by
            unfold applyDrainInvoke; rw [if_neg hg]
          rw [heq]
          refine ⟨?_, ihs⟩
          intro i hi
          obtain ⟨h1, h2, h3⟩ := ihd i hi
          refine ⟨?_, ?_, h3⟩
          · intro hm
            rcases List.mem_map.mp hm with ⟨pr, hpr, hfst⟩
            exact h1 (List.mem_map.mpr ⟨pr, List.mem_of_mem_drop hpr, hfst⟩)
          · intro c hc
            have hc2 : t1.queue.take bs = c := by simpa using hc
            intro hm
            rw [← hc2] at hm
            rcases List.mem_map.mp hm with ⟨pr, hpr, hfst⟩
            exact h1 (List.mem_map.mpr ⟨pr, List.mem_of_mem_take hpr, hfst⟩)
      | threshold hth =>
        by_cases hg : (t1.draining || t1.queue.isEmpty) = true
        · have heq : applyDrainInvoke bs t1 = t1 := by
            unfold applyDrainInvoke; rw [if_pos hg]
          rw [heq]; exact ⟨ihd, ihs⟩
        · have heq : applyDrainInvoke bs t1 =
              { t1 with draining := true,
                        inflight := some (t1.queue.take bs),
                        queue := t1.queue.drop bs,
                        flushed := t1.flushed ++ [t1.queue.take bs] } := by
            unfold applyDrainInvoke; rw [if_neg hg]
          rw [heq]
          refine ⟨?_, ihs⟩
          intro i hi
          obtain ⟨h1, h2, h3⟩ := ihd i hi
          refine ⟨?_, ?_, h3⟩
          · intro hm
            rcases List.mem_map.mp hm with ⟨pr, hpr, hfst⟩
            exact h1 (List.mem_map.mpr ⟨pr, List.mem_of_mem_drop hpr, hfst⟩)
          · intro c hc
            have hc2 : t1.queue.take bs = c := by simpa using hc
            intro hm
            rw [← hc2] at hm
            rcases List.mem_map.mp hm with ⟨pr, hpr, hfst⟩
            exact h1 (List.mem_map.mpr ⟨pr, List.mem_of_mem_take hpr, hfst⟩)
      | drainOk hdu hpo =>
        cases hobu : t1.inflight with
        | none =>
          have heq : applyDrainEndOk t1 = t1 := by
            unfold applyDrainEndOk; rw [hobu]
          rw [heq]; exact ⟨ihd, ihs⟩
        | some c =>
          have heq : applyDrainEndOk t1 =
              { t1 with store := t1.store ++ [c], inflight := none,
                        draining := false } := by
            unfold applyDrainEndOk; rw [hobu]
          rw [heq]
          refine ⟨?_, ?_⟩
          · intro i hi
            obtain ⟨h1, h2, h3⟩ := ihd i hi
            exact ⟨h1, fun c2 hc2 => Option.noConfusion hc2, h3⟩
          · intro c2 hc2 hc2s
            rcases List.mem_append.mp hc2 with hm | hm
            · exact ihs c2 hm hc2s
            · have hcc : c2 = c := by simpa using hm
              intro a hac hab
              rw [hcc] at hac
              exact (ihd a hab).2.1 c hobu hac
      | drainFail msg2 hdu =>
        cases hobu : t1.inflight with
        | none =>
          have heq : applyDrainEndFail msg2 t1 = t1 := by
            unfold applyDrainEndFail; rw [hobu]
          rw [heq]; exact ⟨ihd, ihs⟩
        | some c =>
          have heq : applyDrainEndFail msg2 t1 =
              { t1 with errors := t1.errors ++
                  ["[analytics] batch insert failed: " ++ msg2],
                        inflight := none, draining := false } := by
            unfold applyDrainEndFail; rw [hobu]
          rw [heq]
          refine ⟨?_, ihs⟩
          intro i hi
          obtain ⟨h1, h2, h3⟩ := ihd i hi
          exact ⟨h1, fun c2 hc2 => Option.noConfusion hc2, h3⟩
      | stop => exact ⟨ihd, ihs⟩
  exact main.2

def witFailState : SysState := applyDrainInvoke 500 (applyPush ev1 initState)

theorem failed_flush_dropped_witness :
    (applyDrainEndFail "boom" witFailState).queue = witFailState.queue ∧
    (applyDrainEndFail "boom" witFailState).store = witFailState.store ∧
    (applyDrainEndFail "boom" witFailState).errors =
      witFailState.errors ++ ["[analytics] batch insert failed: boom"] ∧
    (applyDrainEndFail "boom" witFailState).draining = false ∧
    (applyDrainEndFail "boom" witFailState).inflight = none ∧
    (∀ e, (applyPush e (applyDrainEndFail "boom" witFailState)).queue =
      witFailState.queue ++ [(witFailState.nextId, e)]) ∧
    (∀ t, ReachFrom 500 (applyDrainEndFail "boom" witFailState) t →
      ∀ c ∈ t.store, c ∉ witFailState.store →
        (batchIds c).Disjoint (batchIds [(0, ev1)])) :=
  failed_flush_dropped 500 witFailState [(0, ev1)] "boom"
    (ReachFrom.tail (ReachFrom.tail (ReachFrom.refl _) (Step.push ev1 _))
      (Step.timerTick _ rfl))
    (by decide)

/-- C6: when no flush is in flight, invoking drain on an empty queue is a
no-op; on a non-empty queue it removes exactly the first
`min batchSize queueLength` records — the head of the queue, at most
`batchSize` of them, all of them when fewer are queued — leaving the store
untouched at this point, and the single INSERT built for the removed batch
has one placeholder tuple per record and `11 * n` bind parameters. -/
theorem flush_batch_bound (bs : Nat) (table : String) (s : SysState)
    (hd : s.draining = false) :
    (s.queue = [] → applyDrainInvoke bs s = s) ∧
    (s.queue ≠ [] →
      (applyDrainInvoke bs s).inflight = some (s.queue.take bs) ∧
      (s.queue.take bs).length = min bs s.queue.length ∧
      (s.queue.take bs).length ≤ bs ∧
      s.queue.take bs ++ (applyDrainInvoke bs s).queue = s.queue ∧
      (s.queue.length ≤ bs → (applyDrainInvoke bs s).queue = []) ∧
      (applyDrainInvoke bs s).store = s.store ∧
      (buildInsert table ((s.queue.take bs).map Prod.snd)).tuples.length =
        (s.queue.take bs).length ∧
      (buildInsert table ((s.queue.take bs).map Prod.snd)).params.length =
        11 * (s.queue.take bs).length) := by
  constructor
  · intro hq
    unfold applyDrainInvoke
    rw [if_pos (by simp [hd, hq])]
  · intro hq
    have hgp : ¬ ((s.draining || s.queue.isEmpty) = true) := by
      simp [hd, hq]
    have heq : applyDrainInvoke bs s =
        { s with draining := true, inflight := some (s.queue.take bs),
                 queue := s.queue.drop bs,
                 flushed := s.flushed ++ [s.queue.take bs] } := by
      unfold applyDrainInvoke; rw [if_neg hgp]
    rw [heq]
    refine ⟨rfl, List.length_take bs s.queue, List.length_take_le bs s.queue,
            List.take_append_drop bs s.queue, ?_, rfl, ?_, ?_⟩
    · intro hle
      exact List.drop_eq_nil_of_le hle
    · simp [buildInsert]
    · show ((((s.queue.take bs).map Prod.snd).map rowParams).flatten).length = _
      rw [params_length, List.length_map]

def witQueue2 : SysState := applyPush ev2 (applyPush ev1 initState)

theorem flush_batch_bound_witness :
    (witQueue2.queue = [] → applyDrainInvoke 500 witQueue2 = witQueue2) ∧
    (witQueue2.queue ≠ [] →
      (applyDrainInvoke 500 witQueue2).inflight =
        some (witQueue2.queue.take 500) ∧
      (witQueue2.queue.take 500).length = min 500 witQueue2.queue.length ∧
      (witQueue2.queue.take 500).length ≤ 500 ∧
      witQueue2.queue.take 500 ++ (applyDrainInvoke 500 witQueue2).queue =
        witQueue2.queue ∧
      (witQueue2.queue.length ≤ 500 →
        (applyDrainInvoke 500 witQueue2).queue = []) ∧
      (applyDrainInvoke 500 witQueue2).store = witQueue2.store ∧
      (buildInsert "web_analytics_events"
        ((witQueue2.queue.take 500).map Prod.snd)).tuples.length =
        (witQueue2.queue.take 500).length ∧
      (buildInsert "web_analytics_events"
        ((witQueue2.queue.take 500).map Prod.snd)).params.length =
        11 * (witQueue2.queue.take 500).length) :=
  flush_batch_bound 500 "web_analytics_events" witQueue2 rfl

/-- C9: the top-routes result has at most 50 rows, is ordered by descending
count, every returned pair is a genuine group — its count is the number of
in-window rows carrying that route, positive, and witnessed by an actual
row of the table with that non-null route inside the trailing 24 hours —
and when the window holds 60 distinct routes the result has exactly 50
rows. -/
theorem top_routes_query (now : Int) (rows : List Event) :
    (topRoutes now rows).length ≤ 50 ∧
    List.Pairwise (fun a b : String × Nat => b.2 ≤ a.2) (topRoutes now rows) ∧
    (∀ p ∈ topRoutes now rows,
      p.2 = routeCount now rows p.1 ∧ 0 < p.2 ∧
      ∃ e ∈ rows, e.route = some p.1 ∧ now - dayMs < e.occurred_at) ∧
    ((routeKeys now rows).length = 60 → (topRoutes now rows).length = 50) := by
  refine ⟨List.length_take_le 50 _, ?_, ?_, ?_⟩
  · have hs := @List.sorted_mergeSort (String × Nat)
      (fun a b => decide (b.2 ≤ a.2))
      (fun a b c hab hbc => by
        simp only [decide_eq_true_eq] at *
        omega)
      (fun a b => by
        rcases Nat.le_total b.2 a.2 with h | h <;> simp [h])
      ((routeKeys now rows).map (fun r => (r, routeCount now rows r)))
    have hp := hs.sublist (List.take_sublist 50 _)
    exact hp.imp (fun h => by simpa using h)
  · intro p hp
    have hp1 : p ∈ ((routeKeys now rows).map
        (fun r => (r, routeCount now rows r))).mergeSort
          (fun a b => decide (b.2 ≤ a.2)) := List.mem_of_mem_take hp
    have hp2 : p ∈ (routeKeys now rows).map
        (fun r => (r, routeCount now rows r)) := List.mem_mergeSort.mp hp1
    rcases List.mem_map.mp hp2 with ⟨r, hr, hpr⟩
    have hrk : r ∈ ((recentRouted now rows).filterMap (fun e => e.route)) :=
      List.mem_dedup.mp hr
    rcases List.mem_filterMap.mp hrk with ⟨e, he, heq⟩
    have hcond := (List.mem_filter.mp he).2
    have hrows := (List.mem_filter.mp he).1
    simp only [Bool.and_eq_true, decide_eq_true_eq] at hcond
    subst hpr
    refine ⟨rfl, ?_, ⟨e, hrows, heq, hcond.1⟩⟩
    have hmem : e ∈ (recentRouted now rows).filter
        (fun e => decide (e.route = some r)) :=
      List.mem_filter.mpr ⟨he, by simp [heq]⟩
    exact List.length_pos.mpr (List.ne_nil_of_mem hmem)
  · intro h60
    have hlm : (((routeKeys now rows).map
        (fun r => (r, routeCount now rows r))).mergeSort
          (fun a b => decide (b.2 ≤ a.2))).length = 60 := by
      rw [List.length_mergeSort, List.length_map, h60]
    unfold topRoutes
    rw [List.length_take, hlm]
    omega

def w60Row (i : Nat) : Event :=
  { event_type := "request", occurred_at := 1, user_id := none,
    route := some ("r" ++ toString i), method := "GET", status := 200,
    latency_ms := 1, ip_cidr := none, ip_full := none, user_agent := none,
    meta := none }

def w60Rows : List Event := (List.range 60).map w60Row

theorem top_routes_query_witness :
    (routeKeys 86400000 w60Rows).length = 60 ∧
    (topRoutes 86400000 w60Rows).length = 50 :=
  ⟨by decide, (top_routes_query 86400000 w60Rows).2.2.2 (by decide)⟩

end AnalReporting
